import Mathlib

/-!
Verification development for the proxy_pool service.

The Go sources are shallowly embedded: each Go function used by the
properties below is translated into an executable Lean definition.
Machine integers (`int`, `int64`) are modelled as `Int` (no overflow is
reachable at the magnitudes involved), `float64` score arithmetic is
modelled exactly over `ℚ`, wall-clock instants are `Int` milliseconds,
and the relational store is a `List Proxy` of rows.  Fallible Go code
(runtime panics) is modelled with `Option`.
-/

namespace ProxyPool

/-- Row of the `proxies` table, mirroring `models.Proxy` (src/models/proxy.go).
`id` is the gorm surrogate key; `successRate` models the `success_rate`
column referenced by `Pool.UpdateProxyStatus`, `CleanupInvalid` and
`OptimizePool` (the spec treats it as a cached mirror of the derived
success rate).  `Type` being a Lean keyword, the field is named `ptype`;
proxy types and regions are the Go string constants. -/
structure Proxy where
  id : Nat
  ip : String
  port : Int
  ptype : String
  protocol : String
  region : String
  source : String
  anonymous : Bool
  speed : Int
  success : Int
  failure : Int
  score : ℚ
  lastCheck : Int
  available : Bool
  useCount : Int
  concurrentUse : Int
  maxConcurrent : Int
  lastUsedAt : Int
  version : Int
  failCount : Int
  successRate : ℚ
deriving DecidableEq, Repr

/-- The persistent store: the rows of the `proxies` table. -/
abbrev Store := List Proxy

/-- Embeds `Proxy.GetSuccessRate`: `Success/(Success+Failure) * 100`,
or 0 when no observation exists. -/
def getSuccessRate (p : Proxy) : ℚ :=
  if p.success + p.failure = 0 then 0
  else (p.success : ℚ) / ((p.success : ℚ) + (p.failure : ℚ)) * 100

/-- Embeds `Proxy.UpdateScore`: success rate weighted 70%, speed score
(baseline `100 - Speed/10`, floored at 0, 100 when `Speed = 0`) weighted 30%. -/
def updateScore (p : Proxy) : Proxy :=
  let successRate := getSuccessRate p
  let speedScore : ℚ := if p.speed > 0 then max 0 (100 - (p.speed : ℚ) / 10) else 100
  { p with score := successRate * (7/10) + speedScore * (3/10) }

/-- Embeds `Proxy.UpdateStats`.  On success the blend branch computes
`(Speed*(UseCount-1) + speed) / UseCount` in Go `int64` arithmetic, which
panics when `UseCount = 0`; the panic is modelled as `none`. -/
def updateStats (p : Proxy) (success : Bool) (speed : Int) (now : Int) : Option Proxy :=
  let step : Option Proxy :=
    if success then
      let p := { p with success := p.success + 1 }
      if p.speed = 0 then
        some { p with speed := speed }
      else if p.useCount = 0 then
        none
      else
        some { p with speed := Int.tdiv (p.speed * (p.useCount - 1) + speed) p.useCount }
    else
      some { p with failure := p.failure + 1 }
  step.map (fun q => updateScore { q with lastCheck := now })

/-- The fixed canary list `ProxyValidator.testURLs` (src/core/validator.go). -/
def testURLs : List String :=
  ["http://www.baidu.com", "https://store.steampowered.com"]

/-- The canary loop of `ValidateProxy`: each URL yields either a transport
error (`none`) or a status code; the loop continues past errors and
non-200 statuses and breaks at the first response whose status equals
`http.StatusOK` (exactly 200). -/
def firstSuccess (probe : String → Option Nat) : List String → Bool
  | [] => false
  | u :: rest =>
    match probe u with
    | some code => if code = 200 then true else firstSuccess probe rest
    | none => firstSuccess probe rest

/-- Outcome of `ValidateProxy` on a row: the row is either deleted from the
store or saved back with the updated fields. -/
inductive ValidateOutcome where
  | deleted (p : Proxy)
  | saved (p : Proxy)
deriving DecidableEq, Repr

/-- Embeds `ProxyValidator.ValidateProxy` (row transformation).  `probe`
gives each canary's response, `elapsed` the measured wall-clock
milliseconds from the start of the canary loop, `now` the clock at the
update.  The row gets `LastCheck`, `Speed` and `Available` in every case;
on success `FailCount` resets to 0; on failure `FailCount` is incremented
and the row is deleted instead of saved once it reaches `maxFailCount`. -/
def validateProxy (now elapsed : Int) (maxFailCount : Int)
    (probe : String → Option Nat) (p : Proxy) : ValidateOutcome :=
  let success := firstSuccess probe testURLs
  let p1 := { p with lastCheck := now, speed := elapsed, available := success }
  if success then
    .saved { p1 with failCount := 0 }
  else
    let p2 := { p1 with failCount := p1.failCount + 1 }
    if p2.failCount ≥ maxFailCount then .deleted p2 else .saved p2

/-- Gorm `db.Save(p)`: update the row with `p`'s primary key, or append it
when no such row exists. -/
def dbSave (store : Store) (p : Proxy) : Store :=
  if store.any (fun q => q.id = p.id) then
    store.map (fun q => if q.id = p.id then p else q)
  else store ++ [p]

/-- Gorm `db.Delete(p)`: remove the row(s) with `p`'s primary key. -/
def dbDeleteById (store : Store) (i : Nat) : Store :=
  store.filter (fun q => q.id ≠ i)

/-- Effect of `ValidateProxy` on the store: the deleted branch removes the
row, the saved branch persists the update. -/
def validateProxyStore (store : Store) (now elapsed maxFailCount : Int)
    (probe : String → Option Nat) (p : Proxy) : Store :=
  match validateProxy now elapsed maxFailCount probe p with
  | .deleted q => dbDeleteById store q.id
  | .saved q => dbSave store q

/-- One validation round of the stored row with primary key `i` (as the
bulk path does: the row is loaded from the store and `ValidateProxy` is
applied to it). -/
def validateById (store : Store) (now elapsed maxFailCount : Int)
    (probe : String → Option Nat) (i : Nat) : Store :=
  match store.find? (fun q => q.id = i) with
  | none => store
  | some p => validateProxyStore store now elapsed maxFailCount probe p

/-- In-memory runtime state of `ProxyScheduler` (src/core/scheduler.go):
the five maps keyed by proxy id.  Go map reads of a missing key yield the
zero value, so the numeric maps are total functions defaulting to 0;
`cooldown` is read with the comma-ok idiom, so presence matters and it is
an `Option`-valued map. -/
structure SchedulerState where
  lastUsed : Nat → Int
  useCount : Nat → Int
  failCount : Nat → Int
  weights : Nat → ℚ
  cooldown : Nat → Option Int

/-- Pointwise update of a map modelled as a function. -/
def setAt {α : Type} (f : Nat → α) (i : Nat) (a : α) : Nat → α :=
  fun j => if j = i then a else f j

/-- Scheduling task, restricted to the fields the embedded scheduler code
reads (`Strategy`, `ProxyType` with `""` meaning unset, `Domain`,
`RequireAnon`, `MinSpeed`; the remaining Go fields are never read by the
functions modelled here). -/
structure Task where
  proxyType : String
  strategy : String
  domain : String
  requireAnon : Bool
  minSpeed : Int
deriving DecidableEq, Repr

/-- Strategy name constants from src/core/scheduler.go. -/
def strategyWeighted : String := "weighted"

/-- Round-robin strategy name. -/
def strategyRoundRobin : String := "roundrobin"

/-- Least-used strategy name. -/
def strategyLeastUsed : String := "leastused"

/-- Failover strategy name. -/
def strategyFailover : String := "failover"

/-- Site-adaptive strategy name. -/
def strategySiteAdaptive : String := "site_adaptive"

/-- Errors returned by the scheduler. -/
inductive SchedErr where
  | noProxyAvailable
  | noQualifiedProxy
deriving DecidableEq, Repr

/-- Random draws consumed by the strategies: `rFloat` models the single
`rand.Float64()` draw (a value in `[0,1)`), `intn n` models `rand.Intn n`
(a value `< n`). -/
structure Randomness where
  rFloat : ℚ
  intn : Nat → Nat

/-- Embeds `ProxyScheduler.isProxyQualified`: a candidate is rejected when
its type mismatches a set `task.ProxyType`, when a cooldown entry lies in
the future, or when its runtime fail count reached 3.  (The Go code also
deletes a stale cooldown entry of the checked id in passing; that
bookkeeping never changes the returned boolean, so the predicate is
modelled purely.)  `Available`, `RequireAnon` and `MinSpeed` are never
inspected. -/
def isProxyQualified (st : SchedulerState) (p : Proxy) (task : Task) (now : Int) : Bool :=
  if task.proxyType ≠ "" ∧ p.ptype ≠ task.proxyType then false
  else if (match st.cooldown p.id with
           | some cooldownTime => decide (now < cooldownTime)
           | none => false) then false
  else if st.failCount p.id ≥ 3 then false
  else true

/-- Embeds `ProxyScheduler.calculateScore`: success rate weighted 60%, a
speed score weighted 30% (when `Speed > 0`), a usage score weighted 10%
(when `UseCount > 0`). -/
def calculateScore (p : Proxy) : ℚ :=
  let successRate := getSuccessRate p
  let speed : ℚ := (p.speed : ℚ)
  let useCount : ℚ := (p.useCount : ℚ)
  let base := successRate * (6/10)
  let withSpeed := if speed > 0 then base + max 0 (100 - speed / 50) * (3/10) else base
  if useCount > 0 then withSpeed + max 0 (100 - useCount / 100) * (1/10) else withSpeed

/-- Embeds `ProxyScheduler.updateProxyStats` on the runtime maps for the
row `p`: stamp `lastUsed`, bump `useCount`; on failure bump `failCount`
and arm a 5-minute cooldown once it reaches 3; on success clear
`failCount` and the cooldown entry; finally refresh the cached weight. -/
def updateProxyStats (st : SchedulerState) (p : Proxy) (success : Bool) (now : Int) :
    SchedulerState :=
  let st1 := { st with
    lastUsed := setAt st.lastUsed p.id now
    useCount := setAt st.useCount p.id (st.useCount p.id + 1) }
  let st2 :=
    if success then
      { st1 with
        failCount := setAt st1.failCount p.id 0
        cooldown := setAt st1.cooldown p.id none }
    else
      let fc := st1.failCount p.id + 1
      { st1 with
        failCount := setAt st1.failCount p.id fc
        cooldown :=
          if fc ≥ 3 then setAt st1.cooldown p.id (some (now + 300000)) else st1.cooldown }
  { st2 with weights := setAt st2.weights p.id (calculateScore p) }

/-- Embeds `ProxyPool.calculateSuccessRate`: blend the derived success
rate, keeping 80% and adding 20 points on success. -/
def calculateSuccessRate (p : Proxy) (success : Bool) : ℚ :=
  if success then getSuccessRate p * (8/10) + 100 * (2/10)
  else getSuccessRate p * (8/10)

/-- Embeds `ProxyPool.UpdateProxyStatus`: persist `available`, `speed`,
`last_check` and the blended `success_rate` on the row with `p`'s id. -/
def updateProxyStatusStore (store : Store) (p : Proxy) (available : Bool)
    (speed now : Int) : Store :=
  store.map (fun q =>
    if q.id = p.id then
      { q with available := available, speed := speed, lastCheck := now,
               successRate := calculateSuccessRate p available }
    else q)

/-- Embeds `ProxyScheduler.ReportProxyStatus`: load the row by id (a miss
aborts silently), update the runtime maps, and persist through
`Pool.UpdateProxyStatus` only when `success` is false. -/
def reportProxyStatus (store : Store) (st : SchedulerState) (i : Nat)
    (success : Bool) (speed now : Int) : Store × SchedulerState :=
  match store.find? (fun q => q.id = i) with
  | none => (store, st)
  | some p =>
    let st' := updateProxyStats st p success now
    if success then (store, st')
    else (updateProxyStatusStore store p false speed now, st')

/-- Effective weight used by `weightedSchedule`: the cached entry when it
is non-zero, otherwise `calculateScore` of the row. -/
def effectiveWeight (st : SchedulerState) (p : Proxy) : ℚ :=
  if st.weights p.id ≠ 0 then st.weights p.id else calculateScore p

/-- The filter loop of `weightedSchedule`: `isProxyQualified` plus the
(redundant) explicit fail-count check. -/
def weightedCandidates (st : SchedulerState) (proxies : List Proxy) (task : Task)
    (now : Int) : List Proxy :=
  proxies.filter (fun p => isProxyQualified st p task now && !(st.failCount p.id ≥ 3))

/-- The cumulative-draw loop of `weightedSchedule`: subtract weights from
the scaled draw and stop at the first candidate driving it to 0 or below. -/
def pickLoop (r : ℚ) : List (Proxy × ℚ) → Option Proxy
  | [] => none
  | (p, w) :: rest => if r - w ≤ 0 then some p else pickLoop (r - w) rest

/-- Embeds `ProxyScheduler.weightedSchedule`: filter, compute effective
weights, draw `rFloat * totalWeight`, walk the cumulative loop, and fall
back to the last candidate when the loop runs off the end. -/
def weightedSchedule (st : SchedulerState) (proxies : List Proxy) (task : Task)
    (now : Int) (rand : Randomness) : Except SchedErr Proxy :=
  if proxies.isEmpty then .error .noProxyAvailable
  else
    match weightedCandidates st proxies task now with
    | [] => .error .noQualifiedProxy
    | c :: cs =>
      let candidates := c :: cs
      let weights := candidates.map (effectiveWeight st)
      let totalWeight := weights.sum
      let r := rand.rFloat * totalWeight
      match pickLoop r (candidates.zip weights) with
      | some p => .ok p
      | none => .ok (candidates.getLast (List.cons_ne_nil c cs))

/-- Insertion step of the sort used to model Go's `sort.Slice`. -/
def insertLess {α : Type} (less : α → α → Bool) (x : α) : List α → List α
  | [] => [x]
  | y :: ys => if less x y then x :: y :: ys else y :: insertLess less x ys

/-- Insertion sort by a strict-less boolean comparator, modelling Go's
`sort.Slice` (the claims below depend only on membership and emptiness,
never on tie order). -/
def sortLess {α : Type} (less : α → α → Bool) : List α → List α
  | [] => []
  | x :: xs => insertLess less x (sortLess less xs)

/-- Embeds `ProxyScheduler.roundRobinSchedule`: qualified candidates
sorted by earliest runtime `lastUsed`, first one selected. -/
def roundRobinSchedule (st : SchedulerState) (proxies : List Proxy) (task : Task)
    (now : Int) : Except SchedErr Proxy :=
  if proxies.isEmpty then .error .noProxyAvailable
  else
    match proxies.filter (fun p => isProxyQualified st p task now) with
    | [] => .error .noQualifiedProxy
    | c :: cs =>
      match sortLess (fun a b => st.lastUsed a.id < st.lastUsed b.id) (c :: cs) with
      | [] => .error .noQualifiedProxy
      | sel :: _ => .ok sel

/-- Embeds `ProxyScheduler.leastUsedSchedule`: qualified candidates sorted
by smallest runtime `useCount`, first one selected. -/
def leastUsedSchedule (st : SchedulerState) (proxies : List Proxy) (task : Task)
    (now : Int) : Except SchedErr Proxy :=
  if proxies.isEmpty then .error .noProxyAvailable
  else
    match proxies.filter (fun p => isProxyQualified st p task now) with
    | [] => .error .noQualifiedProxy
    | c :: cs =>
      match sortLess (fun a b => st.useCount a.id < st.useCount b.id) (c :: cs) with
      | [] => .error .noQualifiedProxy
      | sel :: _ => .ok sel

/-- Embeds `ProxyScheduler.failoverSchedule`: qualified candidates sorted
by smallest runtime `failCount`, first one selected. -/
def failoverSchedule (st : SchedulerState) (proxies : List Proxy) (task : Task)
    (now : Int) : Except SchedErr Proxy :=
  if proxies.isEmpty then .error .noProxyAvailable
  else
    match proxies.filter (fun p => isProxyQualified st p task now) with
    | [] => .error .noQualifiedProxy
    | c :: cs =>
      match sortLess (fun a b => st.failCount a.id < st.failCount b.id) (c :: cs) with
      | [] => .error .noQualifiedProxy
      | sel :: _ => .ok sel

/-- Embeds `ProxyScheduler.defaultSchedule`: uniform choice (via
`rand.Intn`) among the qualified candidates. -/
def defaultSchedule (st : SchedulerState) (proxies : List Proxy) (task : Task)
    (now : Int) (rand : Randomness) : Except SchedErr Proxy :=
  if proxies.isEmpty then .error .noProxyAvailable
  else
    match proxies.filter (fun p => isProxyQualified st p task now) with
    | [] => .error .noQualifiedProxy
    | c :: cs => .ok (((c :: cs).getD (rand.intn (cs.length + 1)) c))

/-- The ranking record built by `siteAdaptiveSchedule` (struct
`adaptiveProxy` in the source). -/
structure AdaptiveProxy where
  proxy : Proxy
  useCount : Int
  lastUsed : Int
  score : ℚ

/-- The `sort.Slice` comparator of `siteAdaptiveSchedule`: use-count
buckets wider than 2 dominate, then staleness beyond 5 seconds, then
score. -/
def adaptiveLess (now : Int) (a b : AdaptiveProxy) : Bool :=
  if (a.useCount - b.useCount).natAbs > 2 then decide (a.useCount < b.useCount)
  else if now - a.lastUsed > 5000 ∨ now - b.lastUsed > 5000 then
    decide (now - a.lastUsed > now - b.lastUsed)
  else decide (a.score > b.score)

/-- Embeds `ProxyScheduler.siteAdaptiveSchedule`: with an empty domain it
delegates to `defaultSchedule`; otherwise it ranks ALL passed proxies
(`isProxyQualified` is never consulted on this path) and picks among the
top three (uniformly when more than three candidates exist). -/
def siteAdaptiveSchedule (st : SchedulerState) (proxies : List Proxy) (task : Task)
    (now : Int) (rand : Randomness) : Except SchedErr Proxy :=
  if task.domain = "" then defaultSchedule st proxies task now rand
  else
    let candidates := proxies.map (fun p =>
      AdaptiveProxy.mk p (st.useCount p.id) (st.lastUsed p.id) p.score)
    match sortLess (adaptiveLess now) candidates with
    | [] => .error .noQualifiedProxy
    | c :: cs =>
      let selectedIndex := if cs.length + 1 > 3 then rand.intn 3 else 0
      .ok ((c :: cs).getD selectedIndex c).proxy

/-- Embeds the strategy dispatch of `ProxyScheduler.ScheduleProxy` over a
candidate list (the list `Pool.GetProxies` returned; its ordering is
immaterial to the properties below). -/
def scheduleProxy (st : SchedulerState) (proxies : List Proxy) (task : Task)
    (now : Int) (rand : Randomness) : Except SchedErr Proxy :=
  if task.strategy = strategySiteAdaptive then siteAdaptiveSchedule st proxies task now rand
  else if task.strategy = strategyWeighted then weightedSchedule st proxies task now rand
  else if task.strategy = strategyRoundRobin then roundRobinSchedule st proxies task now
  else if task.strategy = strategyLeastUsed then leastUsedSchedule st proxies task now
  else if task.strategy = strategyFailover then failoverSchedule st proxies task now
  else defaultSchedule st proxies task now rand

/-- Key predicate of the `(ip, port)` upsert (the `WHERE ip = ? AND
port = ?` filter). -/
def sameEndpoint (ip : String) (port : Int) (q : Proxy) : Bool :=
  decide (q.ip = ip ∧ q.port = port)

/-- Embeds `models.IsProxyExists`: does any row carry this `(ip, port)`? -/
def isProxyExists (store : Store) (ip : String) (port : Int) : Bool :=
  store.any (sameEndpoint ip port)

/-- The `Updates` map of `BatchCreateWithDuplicateCheck`: refresh exactly
the descriptive fields `type, protocol, region, source, anonymous` of a
colliding row, leaving every other column alone. -/
def refreshDescriptive (p q : Proxy) : Proxy :=
  { q with ptype := p.ptype, protocol := p.protocol, region := p.region,
           source := p.source, anonymous := p.anonymous }

/-- The `BeforeCreate` gorm hook: default `MaxConcurrent` to 10 and stamp
`LastCheck` on insertion.  (Surrogate-id assignment by the database is
not modelled; rows keep the id they were built with.) -/
def beforeCreate (now : Int) (p : Proxy) : Proxy :=
  { p with maxConcurrent := if p.maxConcurrent = 0 then 10 else p.maxConcurrent,
           lastCheck := now }

/-- Row-level action of the collision branch: refresh the descriptive
fields when the row carries the batch entry's `(ip, port)`. -/
def descApply (p q : Proxy) : Proxy :=
  if sameEndpoint p.ip p.port q then refreshDescriptive p q else q

/-- One iteration of the `BatchCreateWithDuplicateCheck` loop: create the
row when its `(ip, port)` is absent, otherwise refresh the descriptive
fields of every row with that `(ip, port)`. -/
def upsertOne (now : Int) (store : Store) (p : Proxy) : Store :=
  if isProxyExists store p.ip p.port then store.map (descApply p)
  else store ++ [beforeCreate now p]

/-- Row-level effect of a whole batch on one row: each batch entry in turn
refreshes the row's descriptive fields when the endpoints collide. -/
def applyAll (ps : List Proxy) (q : Proxy) : Proxy :=
  ps.foldl (fun acc e => descApply e acc) q

/-- Equality of every field except the five descriptive ones. -/
def sameNonDescriptive (x y : Proxy) : Prop :=
  x.id = y.id ∧ x.ip = y.ip ∧ x.port = y.port ∧ x.speed = y.speed ∧
  x.success = y.success ∧ x.failure = y.failure ∧ x.score = y.score ∧
  x.lastCheck = y.lastCheck ∧ x.available = y.available ∧ x.useCount = y.useCount ∧
  x.concurrentUse = y.concurrentUse ∧ x.maxConcurrent = y.maxConcurrent ∧
  x.lastUsedAt = y.lastUsedAt ∧ x.version = y.version ∧ x.failCount = y.failCount ∧
  x.successRate = y.successRate

/-- The row's descriptive fields agree with the batch entry's. -/
def descMatches (p r : Proxy) : Prop :=
  r.ptype = p.ptype ∧ r.protocol = p.protocol ∧ r.region = p.region ∧
  r.source = p.source ∧ r.anonymous = p.anonymous

/-- Embeds `models.BatchCreateWithDuplicateCheck`: fold the per-row upsert
over the batch inside one transaction. -/
def batchCreateWithDuplicateCheck (now : Int) (store : Store) (ps : List Proxy) : Store :=
  ps.foldl (upsertOne now) store

/-- The `(ip, port)` keys of a store, for the uniqueness invariant. -/
def storeKeys (store : Store) : List (String × Int) :=
  store.map (fun q => (q.ip, q.port))

/-- Embeds `models.OptimizePool`: delete rows with `score < 30` or
`success_rate < 20`, recompute every surviving row's score with
`Proxy.UpdateScore` and save it, then set `max_concurrent = 20` on every
row whose (recomputed) score is at least 80. -/
def optimizePool (store : Store) : Store :=
  let kept := store.filter (fun p => !(p.score < 30 ∨ p.successRate < 20))
  let rescored := kept.map updateScore
  rescored.map (fun p => if p.score ≥ 80 then { p with maxConcurrent := 20 } else p)

/-- Embeds `KuaidailiSource.FetchProxies` after a successful API round
trip: the parsed candidates are handed to `BaseSource.SaveProxies`, i.e.
`BatchCreateWithDuplicateCheck`, before any validation happens; the
parsed rows are then returned to the caller. -/
def kuaidailiFetchProxies (now : Int) (store : Store) (parsed : List Proxy) :
    Store × List Proxy :=
  (batchCreateWithDuplicateCheck now store parsed, parsed)

/-- Embeds `ProxyFetcher.addProxy` for a candidate whose validation
outcome is already determined by `probe`/`elapsed`: an existing
`(ip, port)` is skipped; otherwise the candidate is validated (which
itself writes through `validateProxyStore`) and created only when the
validated row came back available. -/
def fetcherAddProxy (store : Store) (now elapsed maxFailCount : Int)
    (probe : String → Option Nat) (p : Proxy) : Store :=
  if isProxyExists store p.ip p.port then store
  else
    match validateProxy now elapsed maxFailCount probe p with
    | .deleted _ => store
    | .saved q =>
      let store1 := dbSave store q
      if q.available then store1 ++ [beforeCreate now q] else store1

/-- Modelled from the spec: the scheduler qualification predicate as the
specification words it — `available=true`; `type = task.proxy_type` if
set; runtime `fail_count < 3`; `cooldown_until ≤ now`;
`require_anon ⇒ anonymous`; `min_speed_ms` respected (a positive
`MinSpeed` bounds the proxy's speed).  Written for comparison with
`isProxyQualified`, which is the embedding of the code. -/
def specQualified (st : SchedulerState) (p : Proxy) (task : Task) (now : Int) : Bool :=
  p.available &&
  decide (task.proxyType = "" ∨ p.ptype = task.proxyType) &&
  decide (st.failCount p.id < 3) &&
  (match st.cooldown p.id with
   | some cooldownTime => decide (cooldownTime ≤ now)
   | none => true) &&
  (!task.requireAnon || p.anonymous) &&
  decide (task.minSpeed ≤ 0 ∨ p.speed ≤ task.minSpeed)

/-- Modelled from the spec: membership of a status code in the 2xx
success class (the spec's canary acceptance criterion). -/
def is2xxStatus (c : Nat) : Bool :=
  decide (200 ≤ c ∧ c < 300)

/-- A concrete stored row used by the concrete evaluations below. -/
def baseProxy : Proxy where
  id := 1
  ip := "10.0.0.1"
  port := 8080
  ptype := "long"
  protocol := "http"
  region := "cn"
  source := "kuaidaili_paid"
  anonymous := true
  speed := 0
  success := 0
  failure := 0
  score := 0
  lastCheck := 0
  available := true
  useCount := 0
  concurrentUse := 0
  maxConcurrent := 10
  lastUsedAt := 0
  version := 0
  failCount := 0
  successRate := 0

/-- The row produced by a failing `ValidateProxy` run before the
delete-or-save decision: unavailable, elapsed time recorded, fail count
bumped, check time stamped. -/
def failRow (now elapsed : Int) (p : Proxy) : Proxy :=
  { p with lastCheck := now, speed := elapsed, available := false,
           failCount := p.failCount + 1 }

/-- A probe under which every canary request errors out. -/
def probeNone : String → Option Nat := fun _ => none

/-- A probe under which every canary answers 200 OK. -/
def probe200 : String → Option Nat := fun _ => some 200

/-- A probe under which every canary answers 204 No Content: a 2xx-class
status that is not 200. -/
def probe204 : String → Option Nat := fun _ => some 204

/-- The empty runtime state (fresh scheduler: all maps empty). -/
def zeroSched : SchedulerState where
  lastUsed := fun _ => 0
  useCount := fun _ => 0
  failCount := fun _ => 0
  weights := fun _ => 0
  cooldown := fun _ => none

/-- Runtime state in which proxy id 1 sits in cooldown until time 2000. -/
def cooldownSched : SchedulerState :=
  { zeroSched with cooldown := fun j => if j = 1 then some 2000 else none }

/-- Degenerate randomness (draw 0, index 0). -/
def noRand : Randomness where
  rFloat := 0
  intn := fun _ => 0

/-- A weighted-strategy task with no constraints. -/
def taskWeighted : Task where
  proxyType := ""
  strategy := "weighted"
  domain := ""
  requireAnon := false
  minSpeed := 0

/-- A weighted-strategy task demanding an anonymous proxy. -/
def taskAnon : Task :=
  { taskWeighted with requireAnon := true }

/-- A site-adaptive task with a non-empty domain. -/
def taskSite : Task :=
  { taskWeighted with strategy := "site_adaptive", domain := "example.com" }

/-- A second zero-weight proxy (distinct id and endpoint). -/
def proxyTwo : Proxy :=
  { baseProxy with id := 2, ip := "10.0.0.2" }

/-- Store row whose persisted speed is 100 ms. -/
def rowSpeed100 : Proxy :=
  { baseProxy with speed := 100 }

/-- Optimise scenario: a consistent row at score 10 (derived success rate
10%, speed 900 ms). -/
def lowScoreProxy : Proxy :=
  { baseProxy with success := 1, failure := 9, speed := 900, score := 10, successRate := 10 }

/-- Optimise scenario: a consistent row at score 85 (derived success rate
100%, speed 500 ms). -/
def highScoreProxy : Proxy :=
  { baseProxy with id := 2, ip := "10.0.0.2", success := 5, failure := 0,
                   speed := 500, score := 85, successRate := 100 }

/-- A row whose stored score is 85 but whose success-rate mirror is 0
(e.g. freshly seeded with no recorded outcomes). -/
def highScoreNoHistory : Proxy :=
  { baseProxy with id := 2, ip := "10.0.0.2", score := 85, successRate := 0 }

/-- A raw fetched candidate as `KuaidailiSource.fetchFromAPI` builds it:
endpoint plus descriptive fields, never validated (surrogate id still 0). -/
def rawCandidate : Proxy :=
  { baseProxy with id := 0, ip := "1.2.3.4", port := 8000, available := false }

/-! Helper lemmas (shared across the claim theorems). -/

/-- The canary loop succeeds exactly when some canary answers status 200. -/
theorem firstSuccess_iff (probe : String → Option Nat) (l : List String) :
    firstSuccess probe l = true ↔ ∃ u ∈ l, probe u = some 200 := by
  induction l with
  | nil => simp [firstSuccess]
  | cons u rest ih =>
    simp only [firstSuccess]
    cases hpu : probe u with
    | none => simp [hpu, ih]
    | some n =>
      by_cases hn : n = 200
      · subst hn; simp [hpu]
      · simp [hpu, hn, ih]

/-- Failing probes give the explicit delete-or-save outcome. -/
theorem validateProxy_fail_eq (now elapsed maxFailCount : Int)
    (probe : String → Option Nat) (p : Proxy)
    (hprobe : firstSuccess probe testURLs = false) :
    validateProxy now elapsed maxFailCount probe p =
      (if p.failCount + 1 ≥ maxFailCount then .deleted (failRow now elapsed p)
       else .saved (failRow now elapsed p)) := by
  simp [validateProxy, hprobe, failRow]

/-- In a store with pairwise distinct ids, `find?` by a member's id
returns that member. -/
theorem find?_id_of_nodup (store : Store) (p : Proxy)
    (hnd : (store.map Proxy.id).Nodup) (hp : p ∈ store) :
    store.find? (fun q => q.id = p.id) = some p := by
  induction store with
  | nil => cases hp
  | cons a rest ih =>
    rcases List.mem_cons.mp hp with rfl | hmem
    · simp [List.find?_cons]
    · have hane : ¬ a.id = p.id := by
        intro h
        have hmm : p.id ∈ rest.map Proxy.id := List.mem_map_of_mem Proxy.id hmem
        simp only [List.map_cons, List.nodup_cons] at hnd
        exact hnd.1 (h ▸ hmm)
      have hrest : (rest.map Proxy.id).Nodup := by
        simp only [List.map_cons, List.nodup_cons] at hnd
        exact hnd.2
      simp [List.find?_cons, hane, ih hrest hmem]

/-- Replacing the rows carrying id `i` by a row that itself carries id `i`
leaves the id column unchanged. -/
theorem replace_map_ids (store : Store) (q : Proxy) (i : Nat) (hq : q.id = i) :
    (store.map (fun r => if r.id = i then q else r)).map Proxy.id
      = store.map Proxy.id := by
  induction store with
  | nil => rfl
  | cons a rest ih =>
    simp only [List.map_cons, ih]
    by_cases ha : a.id = i
    · simp [ha, hq]
    · simp [ha]

/-- After replacing the id-`i` rows by `q`, `find?` by id `i` returns `q`
(provided some row carried id `i`). -/
theorem find?_replace (store : Store) (q : Proxy) (i : Nat) (hq : q.id = i)
    (hex : ∃ p ∈ store, p.id = i) :
    (store.map (fun r => if r.id = i then q else r)).find? (fun r => r.id = i)
      = some q := by
  induction store with
  | nil => simp at hex
  | cons a rest ih =>
    by_cases ha : a.id = i
    · simp [List.find?_cons, ha, hq]
    · have hex' : ∃ p ∈ rest, p.id = i := by
        rcases hex with ⟨p, hp, hpi⟩
        rcases List.mem_cons.mp hp with rfl | h
        · exact absurd hpi ha
        · exact ⟨p, h, hpi⟩
      simp [List.find?_cons, ha, ih hex']

/-- When a row with `q`'s id is present, `dbSave` is row replacement. -/
theorem dbSave_of_mem (store : Store) (q p : Proxy) (hp : p ∈ store)
    (hid : q.id = p.id) :
    dbSave store q = store.map (fun r => if r.id = q.id then q else r) := by
  unfold dbSave
  rw [if_pos]
  exact List.any_eq_true.mpr ⟨p, hp, by simp [hid]⟩

/-- One failing validation round on the stored row `p` (current fail count
below the threshold 3): the store keeps its id column, and the row is now
stored with the bumped fail count. -/
theorem validateById_fail_lt (store : Store) (now elapsed : Int)
    (probe : String → Option Nat) (p : Proxy)
    (hprobe : firstSuccess probe testURLs = false)
    (hfind : store.find? (fun q => q.id = p.id) = some p)
    (hp : p ∈ store)
    (hlt : ¬ p.failCount + 1 ≥ 3) :
    validateById store now elapsed 3 probe p.id =
      store.map (fun r => if r.id = p.id then failRow now elapsed p else r) := by
  unfold validateById
  rw [hfind]
  show validateProxyStore store now elapsed 3 probe p =
    store.map (fun r => if r.id = p.id then failRow now elapsed p else r)
  unfold validateProxyStore
  rw [validateProxy_fail_eq now elapsed 3 probe p hprobe, if_neg hlt]
  show dbSave store (failRow now elapsed p) =
    store.map (fun r => if r.id = p.id then failRow now elapsed p else r)
  rw [dbSave_of_mem store (failRow now elapsed p) p hp rfl]
  rfl

/-- One failing validation round on the stored row `p` whose bumped fail
count reaches the threshold 3: the row is deleted. -/
theorem validateById_fail_ge (store : Store) (now elapsed : Int)
    (probe : String → Option Nat) (p : Proxy)
    (hprobe : firstSuccess probe testURLs = false)
    (hfind : store.find? (fun q => q.id = p.id) = some p)
    (hge : p.failCount + 1 ≥ 3) :
    validateById store now elapsed 3 probe p.id = dbDeleteById store p.id := by
  unfold validateById
  rw [hfind]
  show validateProxyStore store now elapsed 3 probe p = dbDeleteById store p.id
  unfold validateProxyStore
  rw [validateProxy_fail_eq now elapsed 3 probe p hprobe, if_pos hge]
  rfl

/-- No row survives `dbDeleteById` with the deleted id. -/
theorem dbDeleteById_not_mem (store : Store) (i : Nat) :
    ∀ r ∈ dbDeleteById store i, r.id ≠ i := by
  intro r hr
  have := List.of_mem_filter hr
  simpa using this

/-- Three consecutive failing validations of a stored row starting at fail
count 0 remove it from the store (threshold 3). -/
theorem triple_failure_evicts (store : Store) (now elapsed : Int)
    (probe : String → Option Nat) (p : Proxy)
    (hprobe : firstSuccess probe testURLs = false)
    (hnd : (store.map Proxy.id).Nodup) (hp : p ∈ store)
    (hfc : p.failCount = 0) :
    ∀ r ∈ validateById (validateById (validateById store now elapsed 3 probe p.id)
        now elapsed 3 probe p.id) now elapsed 3 probe p.id, r.id ≠ p.id := by
  have hfind0 : store.find? (fun q => q.id = p.id) = some p :=
    find?_id_of_nodup store p hnd hp
  have hq1fc : (failRow now elapsed p).failCount = p.failCount + 1 := rfl
  have hs1 : validateById store now elapsed 3 probe p.id =
      store.map (fun r => if r.id = p.id then failRow now elapsed p else r) :=
    validateById_fail_lt store now elapsed probe p hprobe hfind0 hp
      (by rw [hfc]; decide)
  have hfind1 : (store.map (fun r => if r.id = p.id then failRow now elapsed p else r)).find?
      (fun r => r.id = p.id) = some (failRow now elapsed p) :=
    find?_replace store (failRow now elapsed p) p.id rfl ⟨p, hp, rfl⟩
  have hq1mem : failRow now elapsed p ∈
      store.map (fun r => if r.id = p.id then failRow now elapsed p else r) :=
    List.mem_of_find?_eq_some hfind1
  have hs2 : validateById
        (store.map (fun r => if r.id = p.id then failRow now elapsed p else r))
        now elapsed 3 probe p.id =
      (store.map (fun r => if r.id = p.id then failRow now elapsed p else r)).map
        (fun r => if r.id = p.id then failRow now elapsed (failRow now elapsed p) else r) :=
    validateById_fail_lt _ now elapsed probe (failRow now elapsed p) hprobe hfind1 hq1mem
      (by rw [hq1fc, hfc]; decide)
  have hfind2 : ((store.map (fun r => if r.id = p.id then failRow now elapsed p else r)).map
        (fun r => if r.id = p.id then failRow now elapsed (failRow now elapsed p) else r)).find?
      (fun r => r.id = p.id) = some (failRow now elapsed (failRow now elapsed p)) :=
    find?_replace _ (failRow now elapsed (failRow now elapsed p)) p.id rfl
      ⟨failRow now elapsed p, hq1mem, rfl⟩
  have hs3 : validateById
        ((store.map (fun r => if r.id = p.id then failRow now elapsed p else r)).map
          (fun r => if r.id = p.id then failRow now elapsed (failRow now elapsed p) else r))
        now elapsed 3 probe p.id =
      dbDeleteById
        ((store.map (fun r => if r.id = p.id then failRow now elapsed p else r)).map
          (fun r => if r.id = p.id then failRow now elapsed (failRow now elapsed p) else r))
        p.id :=
    validateById_fail_ge _ now elapsed probe (failRow now elapsed (failRow now elapsed p))
      hprobe hfind2 (by show (failRow now elapsed (failRow now elapsed p)).failCount + 1 ≥ 3
                        rw [show (failRow now elapsed (failRow now elapsed p)).failCount
                              = p.failCount + 1 + 1 from rfl, hfc]
                        decide)
  intro r hr
  rw [hs1, hs2, hs3] at hr
  exact dbDeleteById_not_mem _ p.id r hr

/-! Claim theorems. -/

/-- C10: on a success report for a row whose stored speed is non-zero and
whose use count is 0, `Proxy.UpdateStats` hits the division by
`int64(UseCount) = 0` in its weighted-blend branch (a runtime panic,
modelled as `none`), so the function is not total. -/
theorem updateStats_first_use_division_by_zero :
    updateStats { baseProxy with speed := 100 } true 50 1000 = none := by
  rfl

/-- C4 (amended): validation succeeds iff some canary in the fixed list
answers status exactly 200 (the code checks `StatusCode == http.StatusOK`,
not the full 2xx class); on success the row is saved with
`available = true`, `fail_count = 0`, `last_check = now`, and `speed_ms`
set directly to the elapsed wall-clock time of the canary loop (no blend
against the prior value). -/
theorem validateProxy_success_policy
    (now elapsed maxFailCount : Int) (probe : String → Option Nat) (p : Proxy)
    (h : firstSuccess probe testURLs = true) :
    (∀ pr : String → Option Nat,
        firstSuccess pr testURLs = true ↔ ∃ u ∈ testURLs, pr u = some 200) ∧
    validateProxy now elapsed maxFailCount probe p =
      .saved { p with lastCheck := now, speed := elapsed, available := true,
                      failCount := 0 } := by
  refine ⟨fun pr => firstSuccess_iff pr testURLs, ?_⟩
  simp [validateProxy, h]

/-- C4 witness: a probe answering 200 everywhere satisfies the hypothesis,
and the concrete row comes back available with speed 50. -/
theorem validateProxy_success_policy_witness :
    firstSuccess probe200 testURLs = true ∧
    ((∀ pr : String → Option Nat,
        firstSuccess pr testURLs = true ↔ ∃ u ∈ testURLs, pr u = some 200) ∧
     validateProxy 1000 50 3 probe200 baseProxy =
       .saved { baseProxy with lastCheck := 1000, speed := 50, available := true,
                               failCount := 0 }) :=
  ⟨by decide, validateProxy_success_policy 1000 50 3 probe200 baseProxy (by decide)⟩

/-- C4 counterexample: every canary answers 204 — a 2xx-class status — yet
validation fails (the row is saved unavailable with the fail count
bumped), refuting the 2xx acceptance criterion of the claim. -/
theorem validateProxy_rejects_2xx_204 :
    (∀ u ∈ testURLs, probe204 u = some 204) ∧ is2xxStatus 204 = true ∧
    validateProxy 1000 50 3 probe204 baseProxy =
      .saved { baseProxy with lastCheck := 1000, speed := 50, available := false,
                              failCount := 1 } := by
  refine ⟨by decide, by decide, by decide⟩

/-- C1: a failing validation marks the row unavailable, bumps the fail
count by exactly 1, stamps `last_check`, and then deletes the row when the
bumped count reaches `max_fail_count` (leaving no row with its id) while
persisting the bumped row otherwise; with `max_fail_count = 3`, three
consecutive failing validations of a stored row starting at fail count 0
leave the store without that row. -/
theorem validateProxy_failure_policy
    (store : Store) (now elapsed maxFailCount : Int) (probe : String → Option Nat)
    (p : Proxy) (hprobe : firstSuccess probe testURLs = false) :
    ((failRow now elapsed p).available = false ∧
     (failRow now elapsed p).failCount = p.failCount + 1 ∧
     (failRow now elapsed p).lastCheck = now) ∧
    validateProxy now elapsed maxFailCount probe p =
      (if p.failCount + 1 ≥ maxFailCount then .deleted (failRow now elapsed p)
       else .saved (failRow now elapsed p)) ∧
    (p.failCount + 1 ≥ maxFailCount →
      validateProxyStore store now elapsed maxFailCount probe p = dbDeleteById store p.id ∧
      ∀ r ∈ validateProxyStore store now elapsed maxFailCount probe p, r.id ≠ p.id) ∧
    (¬ p.failCount + 1 ≥ maxFailCount →
      validateProxyStore store now elapsed maxFailCount probe p =
        dbSave store (failRow now elapsed p)) ∧
    (p.failCount = 0 → (store.map Proxy.id).Nodup → p ∈ store →
      ∀ r ∈ validateById (validateById (validateById store now elapsed 3 probe p.id)
          now elapsed 3 probe p.id) now elapsed 3 probe p.id, r.id ≠ p.id) := by
  refine ⟨⟨rfl, rfl, rfl⟩, validateProxy_fail_eq now elapsed maxFailCount probe p hprobe,
    ?_, ?_, ?_⟩
  · intro hge
    have heq : validateProxyStore store now elapsed maxFailCount probe p =
        dbDeleteById store p.id := by
      unfold validateProxyStore
      rw [validateProxy_fail_eq now elapsed maxFailCount probe p hprobe, if_pos hge]
      rfl
    exact ⟨heq, by rw [heq]; exact dbDeleteById_not_mem store p.id⟩
  · intro hlt
    unfold validateProxyStore
    rw [validateProxy_fail_eq now elapsed maxFailCount probe p hprobe, if_neg hlt]
  · intro hfc hnd hp
    exact triple_failure_evicts store now elapsed probe p hprobe hnd hp hfc

/-- C1 witness: the all-error probe fails every canary, and the concrete
conclusions hold for `baseProxy` in a singleton store. -/
theorem validateProxy_failure_policy_witness :
    firstSuccess probeNone testURLs = false ∧
    (((failRow 1000 5001 baseProxy).available = false ∧
      (failRow 1000 5001 baseProxy).failCount = baseProxy.failCount + 1 ∧
      (failRow 1000 5001 baseProxy).lastCheck = 1000) ∧
     validateProxy 1000 5001 3 probeNone baseProxy =
       (if baseProxy.failCount + 1 ≥ 3 then .deleted (failRow 1000 5001 baseProxy)
        else .saved (failRow 1000 5001 baseProxy)) ∧
     (baseProxy.failCount + 1 ≥ 3 →
       validateProxyStore [baseProxy] 1000 5001 3 probeNone baseProxy =
         dbDeleteById [baseProxy] baseProxy.id ∧
       ∀ r ∈ validateProxyStore [baseProxy] 1000 5001 3 probeNone baseProxy,
         r.id ≠ baseProxy.id) ∧
     (¬ baseProxy.failCount + 1 ≥ 3 →
       validateProxyStore [baseProxy] 1000 5001 3 probeNone baseProxy =
         dbSave [baseProxy] (failRow 1000 5001 baseProxy)) ∧
     (baseProxy.failCount = 0 → ([baseProxy].map Proxy.id).Nodup → baseProxy ∈ [baseProxy] →
       ∀ r ∈ validateById (validateById (validateById [baseProxy] 1000 5001 3 probeNone
           baseProxy.id) 1000 5001 3 probeNone baseProxy.id) 1000 5001 3 probeNone
           baseProxy.id, r.id ≠ baseProxy.id)) :=
  ⟨by decide,
   validateProxy_failure_policy [baseProxy] 1000 5001 3 probeNone baseProxy (by decide)⟩

/-- A candidate whose cooldown lies in the future is never qualified. -/
theorem isProxyQualified_cooldown_false (st : SchedulerState) (p : Proxy) (task : Task)
    (now ct : Int) (hc : st.cooldown p.id = some ct) (hlt : now < ct) :
    isProxyQualified st p task now = false := by
  simp [isProxyQualified, hc, hlt]

/-- Characterization of the coded qualification predicate: type match
(when requested), cooldown expiry, fail count below 3 — and nothing else. -/
theorem isProxyQualified_iff (st : SchedulerState) (p : Proxy) (task : Task) (now : Int) :
    isProxyQualified st p task now = true ↔
      ((task.proxyType = "" ∨ p.ptype = task.proxyType) ∧
       (∀ ct, st.cooldown p.id = some ct → ct ≤ now) ∧
       st.failCount p.id < 3) := by
  constructor
  · intro h
    refine ⟨?_, ?_, ?_⟩
    · by_contra hor
      push_neg at hor
      unfold isProxyQualified at h
      rw [if_pos hor] at h
      exact Bool.noConfusion h
    · intro ct hct
      by_contra hle
      push_neg at hle
      rw [isProxyQualified_cooldown_false st p task now ct hct hle] at h
      exact Bool.noConfusion h
    · by_contra hge
      push_neg at hge
      have hfalse : isProxyQualified st p task now = false := by
        have h3 : st.failCount p.id ≥ 3 := hge
        unfold isProxyQualified
        simp [h3]
      rw [hfalse] at h
      exact Bool.noConfusion h
  · rintro ⟨hty, hcool, hfc⟩
    unfold isProxyQualified
    have h1 : ¬ (task.proxyType ≠ "" ∧ p.ptype ≠ task.proxyType) := by
      rintro ⟨hne, hnp⟩
      rcases hty with h | h
      · exact hne h
      · exact hnp h
    rw [if_neg h1]
    have h2 : (match st.cooldown p.id with
               | some cooldownTime => decide (now < cooldownTime)
               | none => false) = false := by
      cases hc : st.cooldown p.id with
      | none => rfl
      | some ct =>
        have := hcool ct hc
        simp only [decide_eq_false_iff_not]
        omega
    rw [h2]
    simp only [Bool.false_eq_true, if_false]
    rw [if_neg (by omega)]

/-- With every candidate in cooldown, the qualification filter is empty. -/
theorem qualified_filter_nil (st : SchedulerState) (proxies : List Proxy) (task : Task)
    (now : Int)
    (hcool : ∀ p ∈ proxies, ∃ ct, st.cooldown p.id = some ct ∧ now < ct) :
    proxies.filter (fun p => isProxyQualified st p task now) = [] := by
  rw [List.filter_eq_nil_iff]
  intro p hp
  rcases hcool p hp with ⟨ct, hc, hlt⟩
  simp [isProxyQualified_cooldown_false st p task now ct hc hlt]

/-- With every candidate in cooldown, the weighted filter is empty too. -/
theorem weightedCandidates_nil (st : SchedulerState) (proxies : List Proxy) (task : Task)
    (now : Int)
    (hcool : ∀ p ∈ proxies, ∃ ct, st.cooldown p.id = some ct ∧ now < ct) :
    weightedCandidates st proxies task now = [] := by
  unfold weightedCandidates
  rw [List.filter_eq_nil_iff]
  intro p hp
  rcases hcool p hp with ⟨ct, hc, hlt⟩
  simp [isProxyQualified_cooldown_false st p task now ct hc hlt]

/-- C3 (amended): for every strategy except `site_adaptive` with a
non-empty domain, a non-empty candidate set in which every candidate's
runtime cooldown lies in the future makes `ScheduleProxy` return
`NoQualifiedProxy` — in particular no cooled proxy is ever returned on
those paths. -/
theorem scheduleProxy_all_cooled
    (st : SchedulerState) (proxies : List Proxy) (task : Task) (now : Int)
    (rand : Randomness)
    (hstrat : task.strategy ≠ strategySiteAdaptive ∨ task.domain = "")
    (hne : proxies ≠ [])
    (hcool : ∀ p ∈ proxies, ∃ ct, st.cooldown p.id = some ct ∧ now < ct) :
    scheduleProxy st proxies task now rand = Except.error SchedErr.noQualifiedProxy := by
  have hq := qualified_filter_nil st proxies task now hcool
  have hw := weightedCandidates_nil st proxies task now hcool
  have hempty : ¬ proxies.isEmpty = true := by
    simp [List.isEmpty_iff, hne]
  unfold scheduleProxy
  by_cases hsite : task.strategy = strategySiteAdaptive
  · have hdom : task.domain = "" := by
      rcases hstrat with h | h
      · exact absurd hsite h
      · exact h
    rw [if_pos hsite]
    unfold siteAdaptiveSchedule
    rw [if_pos hdom]
    unfold defaultSchedule
    rw [if_neg hempty, hq]
  · rw [if_neg hsite]
    by_cases h1 : task.strategy = strategyWeighted
    · rw [if_pos h1]
      unfold weightedSchedule
      rw [if_neg hempty, hw]
    · rw [if_neg h1]
      by_cases h2 : task.strategy = strategyRoundRobin
      · rw [if_pos h2]
        unfold roundRobinSchedule
        rw [if_neg hempty, hq]
      · rw [if_neg h2]
        by_cases h3 : task.strategy = strategyLeastUsed
        · rw [if_pos h3]
          unfold leastUsedSchedule
          rw [if_neg hempty, hq]
        · rw [if_neg h3]
          by_cases h4 : task.strategy = strategyFailover
          · rw [if_pos h4]
            unfold failoverSchedule
            rw [if_neg hempty, hq]
          · rw [if_neg h4]
            unfold defaultSchedule
            rw [if_neg hempty, hq]

/-- C3 witness: one candidate, cooldown until 2000, clock at 1000,
weighted strategy: the scheduler reports `NoQualifiedProxy`. -/
theorem scheduleProxy_all_cooled_witness :
    (taskWeighted.strategy ≠ strategySiteAdaptive ∨ taskWeighted.domain = "") ∧
    (([baseProxy] : List Proxy) ≠ []) ∧
    (∀ p ∈ ([baseProxy] : List Proxy),
       ∃ ct, cooldownSched.cooldown p.id = some ct ∧ (1000 : Int) < ct) ∧
    scheduleProxy cooldownSched [baseProxy] taskWeighted 1000 noRand =
      Except.error SchedErr.noQualifiedProxy := by
  have hcool : ∀ p ∈ ([baseProxy] : List Proxy),
      ∃ ct, cooldownSched.cooldown p.id = some ct ∧ (1000 : Int) < ct := by
    intro p hp
    rw [List.mem_singleton] at hp
    subst hp
    exact ⟨2000, rfl, by decide⟩
  exact ⟨Or.inl (by decide), by decide, hcool,
    scheduleProxy_all_cooled cooldownSched [baseProxy] taskWeighted 1000 noRand
      (Or.inl (by decide)) (by decide) hcool⟩

/-- C3 counterexample: the site-adaptive strategy with a non-empty domain
returns the single candidate even though its cooldown (until 2000) is
still in the future at time 1000, instead of `NoQualifiedProxy`. -/
theorem siteAdaptive_returns_cooled_proxy :
    scheduleProxy cooldownSched [baseProxy] taskSite 1000 noRand = Except.ok baseProxy ∧
    cooldownSched.cooldown baseProxy.id = some 2000 ∧ (1000 : Int) < 2000 :=
  ⟨rfl, rfl, by decide⟩

/-- The cumulative-draw loop only ever returns an element of its list. -/
theorem pickLoop_mem (r : ℚ) (l : List (Proxy × ℚ)) (p : Proxy)
    (h : pickLoop r l = some p) : p ∈ l.map Prod.fst := by
  induction l generalizing r with
  | nil => exact Option.noConfusion h
  | cons a rest ih =>
    obtain ⟨q, w⟩ := a
    unfold pickLoop at h
    by_cases hle : r - w ≤ 0
    · rw [if_pos hle] at h
      injection h with h
      subst h
      exact List.mem_cons_self _ _
    · rw [if_neg hle] at h
      exact List.mem_cons_of_mem _ (ih (r - w) h)

/-- A proxy returned by `weightedSchedule` came from the candidate filter. -/
theorem weightedSchedule_mem (st : SchedulerState) (proxies : List Proxy) (task : Task)
    (now : Int) (rand : Randomness) (p : Proxy)
    (hsel : weightedSchedule st proxies task now rand = Except.ok p) :
    p ∈ weightedCandidates st proxies task now := by
  unfold weightedSchedule at hsel
  by_cases hempty : proxies.isEmpty = true
  · rw [if_pos hempty] at hsel
    exact Except.noConfusion hsel
  · rw [if_neg hempty] at hsel
    cases hcand : weightedCandidates st proxies task now with
    | nil =>
      rw [hcand] at hsel
      exact Except.noConfusion hsel
    | cons c cs =>
      rw [hcand] at hsel
      simp only at hsel
      cases hpick : pickLoop ((rand.rFloat) * (((c :: cs).map (effectiveWeight st)).sum))
          ((c :: cs).zip ((c :: cs).map (effectiveWeight st))) with
      | some q =>
        rw [hpick] at hsel
        injection hsel with hqp
        subst hqp
        have hmem := pickLoop_mem _ _ _ hpick
        rwa [List.map_fst_zip _ _ (by simp)] at hmem
      | none =>
        rw [hpick] at hsel
        injection hsel with hqp
        subst hqp
        exact List.getLast_mem _

/-- A weighted candidate passes the coded qualification predicate. -/
theorem weightedCandidates_qualified (st : SchedulerState) (proxies : List Proxy)
    (task : Task) (now : Int) (p : Proxy)
    (hp : p ∈ weightedCandidates st proxies task now) :
    isProxyQualified st p task now = true := by
  unfold weightedCandidates at hp
  have := List.of_mem_filter hp
  exact (Bool.and_eq_true ..).mp this |>.1

/-- C2 (amended): the coded qualification predicate holds iff the proxy's
type matches `task.proxy_type` when set, its cooldown entry (if any) has
expired, and its runtime fail count is below 3 — availability, anonymity
and minimum speed are never checked — and the weighted strategy returns
only proxies satisfying this predicate. -/
theorem weighted_selection_qualified (st : SchedulerState) (proxies : List Proxy)
    (task : Task) (now : Int) (rand : Randomness) (p : Proxy)
    (hsel : weightedSchedule st proxies task now rand = Except.ok p) :
    isProxyQualified st p task now = true ∧
    (∀ (st' : SchedulerState) (q : Proxy) (t' : Task) (m : Int),
       isProxyQualified st' q t' m = true ↔
         ((t'.proxyType = "" ∨ q.ptype = t'.proxyType) ∧
          (∀ ct, st'.cooldown q.id = some ct → ct ≤ m) ∧
          st'.failCount q.id < 3)) :=
  ⟨weightedCandidates_qualified st proxies task now p
     (weightedSchedule_mem st proxies task now rand p hsel),
   fun st' q t' m => isProxyQualified_iff st' q t' m⟩

/-- All-zero effective weights make the cumulative sum zero. -/
theorem weights_sum_zero (st : SchedulerState) (l : List Proxy)
    (hw : ∀ p ∈ l, effectiveWeight st p = 0) :
    (l.map (effectiveWeight st)).sum = 0 := by
  induction l with
  | nil => rfl
  | cons a rest ih =>
    simp only [List.map_cons, List.sum_cons]
    rw [hw a (List.mem_cons_self a rest), ih (fun p hp => hw p (List.mem_cons_of_mem a hp)),
      zero_add]

/-- Degenerate weighted pick: all-zero effective weights force the first
candidate (shared helper). -/
theorem weightedSchedule_zero_weights (st : SchedulerState) (proxies : List Proxy)
    (task : Task) (now : Int) (rand : Randomness) (c : Proxy) (cs : List Proxy)
    (hcand : weightedCandidates st proxies task now = c :: cs)
    (hw : ∀ p ∈ c :: cs, effectiveWeight st p = 0) :
    weightedSchedule st proxies task now rand = Except.ok c := by
  have hempty : ¬ proxies.isEmpty = true := by
    intro h
    rw [List.isEmpty_iff.mp h] at hcand
    simp [weightedCandidates] at hcand
  unfold weightedSchedule
  rw [if_neg hempty, hcand]
  simp only
  have hsum : (((c :: cs).map (effectiveWeight st)).sum) = 0 := weights_sum_zero st _ hw
  have hzip : ((c :: cs).zip ((c :: cs).map (effectiveWeight st)))
      = (c, effectiveWeight st c) :: (cs.zip (cs.map (effectiveWeight st))) := by
    simp [List.zip]
  rw [hsum, hzip, mul_zero]
  unfold pickLoop
  rw [hw c (List.mem_cons_self c cs)]
  norm_num

/-- A fresh row (no observations, zero speed, zero use count) has
effective weight 0 under the empty runtime state. -/
theorem effectiveWeight_zero_fresh (p : Proxy) (hs : p.success = 0) (hf : p.failure = 0)
    (hsp : p.speed = 0) (hu : p.useCount = 0) :
    effectiveWeight zeroSched p = 0 := by
  simp [effectiveWeight, zeroSched, calculateScore, getSuccessRate, hs, hf, hsp, hu]

/-- Both concrete candidates are zero-weight under the empty state. -/
theorem effectiveWeight_zero_pair :
    ∀ p ∈ ([baseProxy, proxyTwo] : List Proxy), effectiveWeight zeroSched p = 0 := by
  intro p hp
  rcases List.mem_cons.mp hp with rfl | hp
  · exact effectiveWeight_zero_fresh baseProxy rfl rfl rfl rfl
  · rcases List.mem_cons.mp hp with rfl | hp
    · exact effectiveWeight_zero_fresh proxyTwo rfl rfl rfl rfl
    · cases hp

/-- The singleton concrete candidate is zero-weight under the empty state. -/
theorem effectiveWeight_zero_single :
    ∀ p ∈ ([baseProxy] : List Proxy), effectiveWeight zeroSched p = 0 := by
  intro p hp
  rcases List.mem_cons.mp hp with rfl | hp
  · exact effectiveWeight_zero_fresh baseProxy rfl rfl rfl rfl
  · cases hp

/-- C2 witness: the weighted strategy on a fresh state returns the single
candidate, which the theorem then shows to be qualified. -/
theorem weighted_selection_qualified_witness :
    weightedSchedule zeroSched [baseProxy] taskWeighted 0 noRand = Except.ok baseProxy ∧
    (isProxyQualified zeroSched baseProxy taskWeighted 0 = true ∧
     (∀ (st' : SchedulerState) (q : Proxy) (t' : Task) (m : Int),
        isProxyQualified st' q t' m = true ↔
          ((t'.proxyType = "" ∨ q.ptype = t'.proxyType) ∧
           (∀ ct, st'.cooldown q.id = some ct → ct ≤ m) ∧
           st'.failCount q.id < 3))) := by
  have hsel : weightedSchedule zeroSched [baseProxy] taskWeighted 0 noRand =
      Except.ok baseProxy :=
    weightedSchedule_zero_weights zeroSched [baseProxy] taskWeighted 0 noRand baseProxy []
      (by decide) effectiveWeight_zero_single
  exact ⟨hsel, weighted_selection_qualified zeroSched [baseProxy] taskWeighted 0 noRand
    baseProxy hsel⟩

/-- C2 counterexample: a non-anonymous proxy under a task demanding
anonymity passes the coded predicate but fails the specified one — the
`require_anon ⇒ anonymous` conjunct is not implemented. -/
theorem qualification_ignores_anonymity :
    isProxyQualified zeroSched { baseProxy with anonymous := false } taskAnon 0 = true ∧
    specQualified zeroSched { baseProxy with anonymous := false } taskAnon 0 = false :=
  ⟨by decide, by decide⟩

/-- C9 (amended): the weighted pick draws `rFloat * totalWeight` once over
the cumulative weight sum; when every effective weight is zero the draw
collapses to 0 and the loop always returns the FIRST candidate — there is
no uniform fallback. -/
theorem weighted_all_zero_picks_first (st : SchedulerState) (proxies : List Proxy)
    (task : Task) (now : Int) (rand : Randomness) (c : Proxy) (cs : List Proxy)
    (hcand : weightedCandidates st proxies task now = c :: cs)
    (hw : ∀ p ∈ c :: cs, effectiveWeight st p = 0) :
    weightedSchedule st proxies task now rand = Except.ok c :=
  weightedSchedule_zero_weights st proxies task now rand c cs hcand hw

/-- C9 witness: two zero-weight candidates; the first is always picked. -/
theorem weighted_all_zero_picks_first_witness :
    weightedCandidates zeroSched [baseProxy, proxyTwo] taskWeighted 0 = [baseProxy, proxyTwo] ∧
    (∀ p ∈ [baseProxy, proxyTwo], effectiveWeight zeroSched p = 0) ∧
    weightedSchedule zeroSched [baseProxy, proxyTwo] taskWeighted 0 noRand =
      Except.ok baseProxy :=
  ⟨by decide, effectiveWeight_zero_pair,
   weighted_all_zero_picks_first zeroSched [baseProxy, proxyTwo] taskWeighted 0 noRand
     baseProxy [proxyTwo] (by decide) effectiveWeight_zero_pair⟩

/-- C9 counterexample: with two all-zero-weight qualified candidates, no
draw whatsoever can return the second candidate, refuting the uniform
fallback. -/
theorem weighted_all_zero_second_unreachable :
    ¬ ∃ r : ℚ, weightedSchedule zeroSched [baseProxy, proxyTwo] taskWeighted 0
        (Randomness.mk r (fun _ => 0)) = Except.ok proxyTwo := by
  rintro ⟨r, hr⟩
  rw [weightedSchedule_zero_weights zeroSched [baseProxy, proxyTwo] taskWeighted 0
    (Randomness.mk r (fun _ => 0)) baseProxy [proxyTwo] (by decide)
    effectiveWeight_zero_pair] at hr
  injection hr with hr
  exact absurd hr (by decide)

/-- Reduction of `reportProxyStatus` once the row lookup has resolved. -/
theorem reportProxyStatus_found (store : Store) (st : SchedulerState) (i : Nat)
    (success : Bool) (speed now : Int) (p : Proxy)
    (hfind : store.find? (fun q => q.id = i) = some p) :
    reportProxyStatus store st i success speed now =
      (if success then store else updateProxyStatusStore store p false speed now,
       updateProxyStats st p success now) := by
  unfold reportProxyStatus
  rw [hfind]
  cases success with
  | true => rfl
  | false => rfl

/-- C6 (amended): for a proxy id present in the store, the runtime map
gets `last_used_at = now` and `use_count + 1`; on success the runtime fail
count resets and the cooldown entry is cleared, but NOTHING is persisted;
on failure the fail count is bumped, a 5-minute cooldown is armed once it
reaches 3, and the row is persisted through the Pool with
`available = false`, the reported speed and `last_check = now`. -/
theorem report_status_policy (store : Store) (st : SchedulerState) (i : Nat)
    (success : Bool) (speed now : Int) (p : Proxy)
    (hfind : store.find? (fun q => q.id = i) = some p) :
    (reportProxyStatus store st i success speed now).2.lastUsed p.id = now ∧
    (reportProxyStatus store st i success speed now).2.useCount p.id
      = st.useCount p.id + 1 ∧
    (success = true →
      (reportProxyStatus store st i success speed now).2.failCount p.id = 0 ∧
      (reportProxyStatus store st i success speed now).2.cooldown p.id = none ∧
      (reportProxyStatus store st i success speed now).1 = store) ∧
    (success = false →
      (reportProxyStatus store st i success speed now).2.failCount p.id
        = st.failCount p.id + 1 ∧
      (st.failCount p.id + 1 ≥ 3 →
        (reportProxyStatus store st i success speed now).2.cooldown p.id
          = some (now + 300000)) ∧
      (¬ st.failCount p.id + 1 ≥ 3 →
        (reportProxyStatus store st i success speed now).2.cooldown p.id
          = st.cooldown p.id) ∧
      (reportProxyStatus store st i success speed now).1
        = updateProxyStatusStore store p false speed now ∧
      ∀ q ∈ (reportProxyStatus store st i success speed now).1, q.id = p.id →
        q.available = false ∧ q.speed = speed ∧ q.lastCheck = now) := by
  rw [reportProxyStatus_found store st i success speed now p hfind]
  cases success with
  | true =>
    refine ⟨?_, ?_, fun _ => ⟨?_, ?_, rfl⟩, fun h => Bool.noConfusion h⟩ <;>
      simp [updateProxyStats, setAt]
  | false =>
    refine ⟨?_, ?_, fun h => Bool.noConfusion h, fun _ => ⟨?_, ?_, ?_, rfl, ?_⟩⟩
    · simp [updateProxyStats, setAt]
    · simp [updateProxyStats, setAt]
    · simp [updateProxyStats, setAt]
    · intro hge
      simp [updateProxyStats, setAt, if_pos hge]
    · intro hlt
      simp [updateProxyStats, setAt, if_neg hlt]
    · intro q hq hqid
      simp only [updateProxyStatusStore] at hq
      rcases List.mem_map.mp hq with ⟨r, hr, rfl⟩
      by_cases hrid : r.id = p.id
      · rw [if_pos hrid]
        exact ⟨rfl, rfl, rfl⟩
      · rw [if_neg hrid] at hqid ⊢
        exact absurd hqid hrid

/-- C6 witness: a failure report on the stored row id 1 with speed 50 at
time 1000. -/
theorem report_status_policy_witness :
    ([rowSpeed100] : Store).find? (fun q => q.id = 1) = some rowSpeed100 ∧
    ((reportProxyStatus [rowSpeed100] zeroSched 1 false 50 1000).2.lastUsed
        rowSpeed100.id = 1000 ∧
     (reportProxyStatus [rowSpeed100] zeroSched 1 false 50 1000).2.useCount
        rowSpeed100.id = zeroSched.useCount rowSpeed100.id + 1 ∧
     (false = true →
       (reportProxyStatus [rowSpeed100] zeroSched 1 false 50 1000).2.failCount
          rowSpeed100.id = 0 ∧
       (reportProxyStatus [rowSpeed100] zeroSched 1 false 50 1000).2.cooldown
          rowSpeed100.id = none ∧
       (reportProxyStatus [rowSpeed100] zeroSched 1 false 50 1000).1 = [rowSpeed100]) ∧
     (false = false →
       (reportProxyStatus [rowSpeed100] zeroSched 1 false 50 1000).2.failCount
          rowSpeed100.id = zeroSched.failCount rowSpeed100.id + 1 ∧
       (zeroSched.failCount rowSpeed100.id + 1 ≥ 3 →
         (reportProxyStatus [rowSpeed100] zeroSched 1 false 50 1000).2.cooldown
            rowSpeed100.id = some (1000 + 300000)) ∧
       (¬ zeroSched.failCount rowSpeed100.id + 1 ≥ 3 →
         (reportProxyStatus [rowSpeed100] zeroSched 1 false 50 1000).2.cooldown
            rowSpeed100.id = zeroSched.cooldown rowSpeed100.id) ∧
       (reportProxyStatus [rowSpeed100] zeroSched 1 false 50 1000).1
          = updateProxyStatusStore [rowSpeed100] rowSpeed100 false 50 1000 ∧
       ∀ q ∈ (reportProxyStatus [rowSpeed100] zeroSched 1 false 50 1000).1,
         q.id = rowSpeed100.id →
         q.available = false ∧ q.speed = 50 ∧ q.lastCheck = 1000)) :=
  ⟨rfl, report_status_policy [rowSpeed100] zeroSched 1 false 50 1000 rowSpeed100 rfl⟩

/-- C6 counterexample: a SUCCESS report leaves the store byte-for-byte
unchanged — the reported speed 50 is never persisted (the stored row keeps
speed 100), refuting the claim that the outcome is persisted in every
case. -/
theorem success_report_not_persisted :
    (reportProxyStatus [rowSpeed100] zeroSched 1 true 50 1000).1 = [rowSpeed100] ∧
    rowSpeed100.speed = 100 :=
  ⟨rfl, rfl⟩

/-- Refreshing descriptive fields keeps the endpoint. -/
theorem refreshDescriptive_ip (p q : Proxy) : (refreshDescriptive p q).ip = q.ip := rfl

/-- Refreshing descriptive fields keeps the port. -/
theorem refreshDescriptive_port (p q : Proxy) : (refreshDescriptive p q).port = q.port := rfl

/-- The collision action keeps the endpoint. -/
theorem descApply_ip (p q : Proxy) : (descApply p q).ip = q.ip := by
  unfold descApply; split <;> rfl

/-- The collision action keeps the port. -/
theorem descApply_port (p q : Proxy) : (descApply p q).port = q.port := by
  unfold descApply; split <;> rfl

/-- The collision action's input and output agree outside the descriptive
fields. -/
theorem descApply_sameNonDescriptive (p q : Proxy) :
    sameNonDescriptive (descApply p q) q := by
  unfold descApply
  split
  · exact ⟨rfl, rfl, rfl, rfl, rfl, rfl, rfl, rfl, rfl, rfl, rfl, rfl, rfl, rfl, rfl, rfl⟩
  · exact ⟨rfl, rfl, rfl, rfl, rfl, rfl, rfl, rfl, rfl, rfl, rfl, rfl, rfl, rfl, rfl, rfl⟩

/-- Non-matching endpoint: the collision action is the identity. -/
theorem descApply_of_ne (p q : Proxy) (h : ¬ (q.ip = p.ip ∧ q.port = p.port)) :
    descApply p q = q := by
  unfold descApply
  rw [if_neg]
  simp [sameEndpoint, h]

/-- Matching endpoint: the collision action refreshes. -/
theorem descApply_of_eq (p q : Proxy) (h : q.ip = p.ip ∧ q.port = p.port) :
    descApply p q = refreshDescriptive p q := by
  unfold descApply
  rw [if_pos]
  simp [sameEndpoint, h]

/-- Rows whose descriptive fields already agree are fixed points of the
refresh. -/
theorem refreshDescriptive_of_matches (p q : Proxy) (h : descMatches p q) :
    refreshDescriptive p q = q := by
  obtain ⟨h1, h2, h3, h4, h5⟩ := h
  cases q
  simp_all [refreshDescriptive, descMatches]

/-- Rows whose descriptive fields already agree are fixed points of the
collision action. -/
theorem descApply_of_matches (p q : Proxy) (h : descMatches p q) :
    descApply p q = q := by
  unfold descApply
  split
  · exact refreshDescriptive_of_matches p q h
  · rfl

/-- Equal non-descriptive fields give equal refreshes. -/
theorem refreshDescriptive_congr (e x y : Proxy) (h : sameNonDescriptive x y) :
    refreshDescriptive e x = refreshDescriptive e y := by
  obtain ⟨h1, h2, h3, h4, h5, h6, h7, h8, h9, h10, h11, h12, h13, h14, h15, h16⟩ := h
  cases x
  cases y
  simp_all [refreshDescriptive]

/-- Mapping the collision action leaves the key column unchanged. -/
theorem storeKeys_map_descApply (p : Proxy) (store : Store) :
    storeKeys (store.map (descApply p)) = storeKeys store := by
  induction store with
  | nil => rfl
  | cons a rest ih =>
    simp only [List.map_cons, storeKeys] at ih ⊢
    rw [descApply_ip, descApply_port]
    rw [ih]

/-- Mapping the collision action does not change which endpoints exist. -/
theorem isProxyExists_map_descApply (p : Proxy) (store : Store) (ip : String) (port : Int) :
    isProxyExists (store.map (descApply p)) ip port = isProxyExists store ip port := by
  induction store with
  | nil => rfl
  | cons a rest ih =>
    simp only [isProxyExists, List.map_cons, List.any_cons] at ih ⊢
    rw [ih]
    have : sameEndpoint ip port (descApply p a) = sameEndpoint ip port a := by
      simp [sameEndpoint, descApply_ip, descApply_port]
    rw [this]

/-- After upserting `p`, its endpoint exists in the store. -/
theorem isProxyExists_upsertOne_self (now : Int) (store : Store) (p : Proxy) :
    isProxyExists (upsertOne now store p) p.ip p.port = true := by
  unfold upsertOne
  by_cases h : isProxyExists store p.ip p.port = true
  · rw [if_pos h, isProxyExists_map_descApply]
    exact h
  · rw [if_neg h]
    unfold isProxyExists
    rw [List.any_append]
    have : sameEndpoint p.ip p.port (beforeCreate now p) = true := by
      simp [sameEndpoint, beforeCreate]
    simp [this]

/-- Upserting any entry preserves existing endpoints. -/
theorem isProxyExists_upsertOne_mono (now : Int) (store : Store) (e : Proxy)
    (ip : String) (port : Int) (h : isProxyExists store ip port = true) :
    isProxyExists (upsertOne now store e) ip port = true := by
  unfold upsertOne
  split
  · rw [isProxyExists_map_descApply]
    exact h
  · unfold isProxyExists at h ⊢
    rw [List.any_append, h]
    rfl

/-- A whole batch preserves existing endpoints. -/
theorem isProxyExists_batch_mono (now : Int) (ps : List Proxy) :
    ∀ (store : Store) (ip : String) (port : Int),
      isProxyExists store ip port = true →
      isProxyExists (batchCreateWithDuplicateCheck now store ps) ip port = true := by
  induction ps with
  | nil => intro store ip port h; exact h
  | cons e rest ih =>
    intro store ip port h
    exact ih (upsertOne now store e) ip port
      (isProxyExists_upsertOne_mono now store e ip port h)

/-- Every batch entry's endpoint exists after the batch ran. -/
theorem isProxyExists_batch_self (now : Int) (ps : List Proxy) :
    ∀ (store : Store) (p : Proxy), p ∈ ps →
      isProxyExists (batchCreateWithDuplicateCheck now store ps) p.ip p.port = true := by
  induction ps with
  | nil => intro _ _ h; cases h
  | cons e rest ih =>
    intro store p hp
    rcases List.mem_cons.mp hp with rfl | hp
    · exact isProxyExists_batch_mono now rest (upsertOne now store p) p.ip p.port
        (isProxyExists_upsertOne_self now store p)
    · exact ih (upsertOne now store e) p hp

/-- An absent endpoint is absent from the key column. -/
theorem key_not_mem_of_not_exists (store : Store) (p : Proxy)
    (h : ¬ isProxyExists store p.ip p.port = true) :
    (p.ip, p.port) ∉ storeKeys store := by
  intro hmem
  apply h
  unfold isProxyExists
  rw [List.any_eq_true]
  rcases List.mem_map.mp hmem with ⟨q, hq, hkey⟩
  refine ⟨q, hq, ?_⟩
  simp only [sameEndpoint, decide_eq_true_eq]
  exact ⟨congrArg Prod.fst hkey, congrArg Prod.snd hkey⟩

/-- One upsert keeps the key column duplicate-free. -/
theorem upsertOne_nodup_keys (now : Int) (store : Store) (p : Proxy)
    (h : (storeKeys store).Nodup) : (storeKeys (upsertOne now store p)).Nodup := by
  unfold upsertOne
  split
  · rwa [storeKeys_map_descApply]
  · rename_i hex
    have hkeys : storeKeys (store ++ [beforeCreate now p])
        = storeKeys store ++ [(p.ip, p.port)] := by
      simp [storeKeys, beforeCreate]
    rw [hkeys, List.nodup_append]
    refine ⟨h, List.nodup_singleton _, ?_⟩
    intro k hk hk1
    rw [List.mem_singleton] at hk1
    subst hk1
    exact key_not_mem_of_not_exists store p hex hk

/-- A whole batch keeps the key column duplicate-free. -/
theorem batch_nodup_keys (now : Int) (ps : List Proxy) :
    ∀ store : Store, (storeKeys store).Nodup →
      (storeKeys (batchCreateWithDuplicateCheck now store ps)).Nodup := by
  induction ps with
  | nil => intro store h; exact h
  | cons e rest ih =>
    intro store h
    exact ih (upsertOne now store e) (upsertOne_nodup_keys now store e h)

/-- When every batch entry's endpoint is already present, the batch is a
pure per-row map of the accumulated collision actions. -/
theorem batch_all_present (now : Int) (ps : List Proxy) :
    ∀ t : Store, (∀ p ∈ ps, isProxyExists t p.ip p.port = true) →
      batchCreateWithDuplicateCheck now t ps = t.map (applyAll ps) := by
  induction ps with
  | nil =>
    intro t _
    show t = t.map (applyAll [])
    have : ∀ q ∈ t, applyAll [] q = q := fun q _ => rfl
    rw [List.map_congr_left this, List.map_id']
  | cons e rest ih =>
    intro t h
    have he : isProxyExists t e.ip e.port = true := h e (List.mem_cons_self e rest)
    have hup : upsertOne now t e = t.map (descApply e) := by
      unfold upsertOne
      rw [if_pos he]
    show batchCreateWithDuplicateCheck now (upsertOne now t e) rest = _
    rw [hup, ih (t.map (descApply e)) (fun p hp => by
      rw [isProxyExists_map_descApply]
      exact h p (List.mem_cons_of_mem e hp)), List.map_map]
    rfl

/-- A row whose endpoint matches no list entry is fixed by `applyAll`. -/
theorem applyAll_of_not_mem (ps : List Proxy) (x : Proxy)
    (h : ∀ e ∈ ps, ¬ (x.ip = e.ip ∧ x.port = e.port)) : applyAll ps x = x := by
  induction ps generalizing x with
  | nil => rfl
  | cons e rest ih =>
    show applyAll rest (descApply e x) = x
    have hne : descApply e x = x :=
      descApply_of_ne e x (h e (List.mem_cons_self e rest))
    rw [hne]
    exact ih x (fun e' he' => h e' (List.mem_cons_of_mem e he'))

/-- Two rows with the same endpoint and the same non-descriptive fields
are driven to the same result by `applyAll` as soon as the list contains
an entry with that endpoint. -/
theorem applyAll_merge (ps : List Proxy) :
    ∀ x y : Proxy, sameNonDescriptive x y →
      (∃ e ∈ ps, e.ip = x.ip ∧ e.port = x.port) →
      applyAll ps x = applyAll ps y := by
  induction ps with
  | nil =>
    intro x y _ hmem
    simp at hmem
  | cons e rest ih =>
    intro x y hnd hmem
    have hip : x.ip = y.ip := hnd.2.1
    have hport : x.port = y.port := hnd.2.2.1
    show applyAll rest (descApply e x) = applyAll rest (descApply e y)
    by_cases hkey : x.ip = e.ip ∧ x.port = e.port
    · have hx : descApply e x = refreshDescriptive e x := descApply_of_eq e x hkey
      have hy : descApply e y = refreshDescriptive e y :=
        descApply_of_eq e y ⟨hip ▸ hkey.1, hport ▸ hkey.2⟩
      rw [hx, hy, refreshDescriptive_congr e x y hnd]
    · have hkey' : ¬ (y.ip = e.ip ∧ y.port = e.port) := by
        rw [← hip, ← hport]
        exact hkey
      rw [descApply_of_ne e x hkey, descApply_of_ne e y hkey']
      rcases hmem with ⟨e', he', hee⟩
      rcases List.mem_cons.mp he' with rfl | hmem'
      · exact absurd ⟨hee.1.symm, hee.2.symm⟩ hkey
      · exact ih x y hnd ⟨e', hmem', hee⟩

/-- After upserting `p`, every row carrying `p`'s endpoint has `p`'s
descriptive fields. -/
theorem upsert_sets_desc (now : Int) (store : Store) (p : Proxy) :
    ∀ r ∈ upsertOne now store p, (r.ip = p.ip ∧ r.port = p.port) → descMatches p r := by
  unfold upsertOne
  by_cases hex : isProxyExists store p.ip p.port = true
  · rw [if_pos hex]
    intro r hr hkey
    rcases List.mem_map.mp hr with ⟨s, hs, rfl⟩
    by_cases hks : s.ip = p.ip ∧ s.port = p.port
    · rw [descApply_of_eq p s hks]
      exact ⟨rfl, rfl, rfl, rfl, rfl⟩
    · rw [descApply_of_ne p s hks] at hkey ⊢
      exact absurd hkey hks
  · rw [if_neg hex]
    intro r hr hkey
    rcases List.mem_append.mp hr with hr | hr
    · exfalso
      apply hex
      unfold isProxyExists
      rw [List.any_eq_true]
      exact ⟨r, hr, by simp [sameEndpoint, hkey.1, hkey.2]⟩
    · rw [List.mem_singleton] at hr
      subst hr
      exact ⟨rfl, rfl, rfl, rfl, rfl⟩

/-- Upserts of entries with other endpoints keep the rows with `p`'s
endpoint descriptively matching `p`. -/
theorem batch_preserves_desc (now : Int) (rest : List Proxy) :
    ∀ (t : Store) (p : Proxy),
      (∀ e ∈ rest, ¬ (e.ip = p.ip ∧ e.port = p.port)) →
      (∀ r ∈ t, (r.ip = p.ip ∧ r.port = p.port) → descMatches p r) →
      ∀ r ∈ batchCreateWithDuplicateCheck now t rest,
        (r.ip = p.ip ∧ r.port = p.port) → descMatches p r := by
  induction rest with
  | nil => intro t p _ hinv r hr; exact hinv r hr
  | cons e rest' ih =>
    intro t p hne hinv r hr
    refine ih (upsertOne now t e) p
      (fun e' he' => hne e' (List.mem_cons_of_mem e he')) ?_ r hr
    intro s hs hskey
    unfold upsertOne at hs
    by_cases hex : isProxyExists t e.ip e.port = true
    · rw [if_pos hex] at hs
      rcases List.mem_map.mp hs with ⟨u, hu, rfl⟩
      by_cases hku : u.ip = e.ip ∧ u.port = e.port
      · exfalso
        rw [descApply_of_eq e u hku] at hskey
        have h1 : u.ip = p.ip := hskey.1
        have h2 : u.port = p.port := hskey.2
        exact hne e (List.mem_cons_self e rest')
          ⟨hku.1.symm.trans h1, hku.2.symm.trans h2⟩
      · rw [descApply_of_ne e u hku] at hskey ⊢
        exact hinv u hu hskey
    · rw [if_neg hex] at hs
      rcases List.mem_append.mp hs with hs | hs
      · exact hinv s hs hskey
      · exfalso
        rw [List.mem_singleton] at hs
        subst hs
        exact hne e (List.mem_cons_self e rest') ⟨hskey.1, hskey.2⟩

/-- Every row of a finished batch is a fixed point of the accumulated
collision actions of that batch. -/
theorem applyAll_batch_fixed (now : Int) (ps : List Proxy) :
    ∀ (store : Store) (q : Proxy), q ∈ batchCreateWithDuplicateCheck now store ps →
      applyAll ps q = q := by
  induction ps with
  | nil => intro store q _; rfl
  | cons p rest ih =>
    intro store q hq
    have hq' : q ∈ batchCreateWithDuplicateCheck now (upsertOne now store p) rest := hq
    show applyAll rest (descApply p q) = q
    by_cases hkq : q.ip = p.ip ∧ q.port = p.port
    · by_cases hrest : ∃ e ∈ rest, e.ip = q.ip ∧ e.port = q.port
      · have hnd : sameNonDescriptive (descApply p q) q := descApply_sameNonDescriptive p q
        have hmem' : ∃ e ∈ rest, e.ip = (descApply p q).ip ∧
            e.port = (descApply p q).port := by
          rcases hrest with ⟨e, he, h1, h2⟩
          exact ⟨e, he, by rw [descApply_ip]; exact h1, by rw [descApply_port]; exact h2⟩
        rw [applyAll_merge rest (descApply p q) q hnd hmem']
        exact ih (upsertOne now store p) q hq'
      · have hfix : applyAll rest (descApply p q) = descApply p q := by
          apply applyAll_of_not_mem rest (descApply p q)
          intro e he hh
          rw [descApply_ip, descApply_port] at hh
          exact hrest ⟨e, he, hh.1.symm, hh.2.symm⟩
        rw [hfix]
        have hdesc : descMatches p q := by
          refine batch_preserves_desc now rest (upsertOne now store p) p ?_
            (upsert_sets_desc now store p) q hq' ⟨hkq.1, hkq.2⟩
          intro e he hh
          exact hrest ⟨e, he, hh.1.trans hkq.1.symm, hh.2.trans hkq.2.symm⟩
        exact descApply_of_matches p q hdesc
    · rw [descApply_of_ne p q hkq]
      exact ih (upsertOne now store p) q hq'

/-- Running the batch a second time changes nothing. -/
theorem batch_idempotent (now : Int) (store : Store) (ps : List Proxy) :
    batchCreateWithDuplicateCheck now (batchCreateWithDuplicateCheck now store ps) ps
      = batchCreateWithDuplicateCheck now store ps := by
  rw [batch_all_present now ps _ (fun p hp => isProxyExists_batch_self now ps store p hp)]
  have hfix : ∀ q ∈ batchCreateWithDuplicateCheck now store ps, applyAll ps q = q :=
    fun q hq => applyAll_batch_fixed now ps store q hq
  rw [List.map_congr_left hfix, List.map_id']

/-- C5: the dedup-insert is an upsert keyed by `(ip, port)`: running it
twice with the same rows equals running it once; a store whose key column
was duplicate-free stays duplicate-free; and on a collision the surviving
row keeps its health counters (`success`, `failure`, `fail_count`,
`speed`, `score`, `use_count`) while taking the batch entry's descriptive
fields (`type`, `protocol`, `region`, `source`, `anonymous`). -/
theorem batch_upsert_policy (now : Int) (store : Store) (ps : List Proxy)
    (hnd : (storeKeys store).Nodup) :
    batchCreateWithDuplicateCheck now (batchCreateWithDuplicateCheck now store ps) ps
      = batchCreateWithDuplicateCheck now store ps ∧
    (storeKeys (batchCreateWithDuplicateCheck now store ps)).Nodup ∧
    (∀ p q : Proxy, q ∈ store → q.ip = p.ip → q.port = p.port →
      ∃ q' ∈ upsertOne now store p,
        q'.success = q.success ∧ q'.failure = q.failure ∧ q'.failCount = q.failCount ∧
        q'.speed = q.speed ∧ q'.score = q.score ∧ q'.useCount = q.useCount ∧
        q'.ptype = p.ptype ∧ q'.protocol = p.protocol ∧ q'.region = p.region ∧
        q'.source = p.source ∧ q'.anonymous = p.anonymous) := by
  refine ⟨batch_idempotent now store ps, batch_nodup_keys now ps store hnd, ?_⟩
  intro p q hq hip hport
  have hex : isProxyExists store p.ip p.port = true := by
    unfold isProxyExists
    rw [List.any_eq_true]
    exact ⟨q, hq, by simp [sameEndpoint, hip, hport]⟩
  have hup : upsertOne now store p = store.map (descApply p) := by
    unfold upsertOne
    rw [if_pos hex]
  refine ⟨descApply p q, ?_, ?_⟩
  · rw [hup]
    exact List.mem_map_of_mem (descApply p) hq
  · rw [descApply_of_eq p q ⟨hip, hport⟩]
    exact ⟨rfl, rfl, rfl, rfl, rfl, rfl, rfl, rfl, rfl, rfl, rfl⟩

/-- C5 witness: a singleton store with duplicate-free keys and a one-row
batch. -/
theorem batch_upsert_policy_witness :
    (storeKeys [baseProxy]).Nodup ∧
    (batchCreateWithDuplicateCheck 0
        (batchCreateWithDuplicateCheck 0 [baseProxy] [rawCandidate]) [rawCandidate]
      = batchCreateWithDuplicateCheck 0 [baseProxy] [rawCandidate] ∧
    (storeKeys (batchCreateWithDuplicateCheck 0 [baseProxy] [rawCandidate])).Nodup ∧
    (∀ p q : Proxy, q ∈ ([baseProxy] : Store) → q.ip = p.ip → q.port = p.port →
      ∃ q' ∈ upsertOne 0 [baseProxy] p,
        q'.success = q.success ∧ q'.failure = q.failure ∧ q'.failCount = q.failCount ∧
        q'.speed = q.speed ∧ q'.score = q.score ∧ q'.useCount = q.useCount ∧
        q'.ptype = p.ptype ∧ q'.protocol = p.protocol ∧ q'.region = p.region ∧
        q'.source = p.source ∧ q'.anonymous = p.anonymous)) :=
  ⟨by decide, batch_upsert_policy 0 [baseProxy] [rawCandidate] (by decide)⟩

/-- C7 (amended): a paid source's fetch persists every parsed candidate
raw: immediately after `FetchProxies` returns — before any validation has
run — each parsed `(ip, port)` is present in the store (candidates are
inserted by `SaveProxies`/`BatchCreateWithDuplicateCheck`; only the
separate `ProxyFetcher.addProxy` path validates before creating). -/
theorem fetch_persists_raw_candidates (now : Int) (store : Store)
    (parsed : List Proxy) (p : Proxy) (hp : p ∈ parsed) :
    isProxyExists (kuaidailiFetchProxies now store parsed).1 p.ip p.port = true :=
  isProxyExists_batch_self now parsed store p hp

/-- C7 witness: the single parsed candidate is present right after fetch. -/
theorem fetch_persists_raw_candidates_witness :
    rawCandidate ∈ ([rawCandidate] : List Proxy) ∧
    isProxyExists (kuaidailiFetchProxies 0 [] [rawCandidate]).1
      rawCandidate.ip rawCandidate.port = true :=
  ⟨by decide, fetch_persists_raw_candidates 0 [] [rawCandidate] rawCandidate (by decide)⟩

/-- C7 counterexample: an endpoint absent from the store appears in it as
soon as the paid fetch returns, with no validation in between — the raw
candidate IS inserted, refuting the claim. -/
theorem raw_candidate_inserted :
    isProxyExists ([] : Store) rawCandidate.ip rawCandidate.port = false ∧
    (kuaidailiFetchProxies 0 [] [rawCandidate]).1 = [beforeCreate 0 rawCandidate] ∧
    (beforeCreate 0 rawCandidate).ip = rawCandidate.ip ∧
    (beforeCreate 0 rawCandidate).port = rawCandidate.port :=
  ⟨rfl, rfl, rfl, rfl⟩

/-- The rescoring step keeps the surrogate id. -/
theorem updateScore_id (p : Proxy) : (updateScore p).id = p.id := rfl

/-- The rescoring step keeps the concurrency cap. -/
theorem updateScore_maxConcurrent (p : Proxy) : (updateScore p).maxConcurrent
    = p.maxConcurrent := rfl

/-- Two members of an id-duplicate-free store with equal ids coincide. -/
theorem eq_of_mem_id_nodup (store : Store) (hnd : (store.map Proxy.id).Nodup)
    (s q : Proxy) (hs : s ∈ store) (hq : q ∈ store) (hid : s.id = q.id) : s = q := by
  induction store with
  | nil => cases hs
  | cons a rest ih =>
    simp only [List.map_cons, List.nodup_cons] at hnd
    rcases List.mem_cons.mp hs with rfl | hs' <;> rcases List.mem_cons.mp hq with rfl | hq'
    · rfl
    · exact absurd (hid ▸ List.mem_map_of_mem Proxy.id hq') hnd.1
    · exact absurd (hid ▸ List.mem_map_of_mem Proxy.id hs') hnd.1
    · exact ih hnd.2 hs' hq'

/-- Shape of a row of the optimised pool: some kept row, rescored, with
the cap update applied. -/
theorem optimizePool_mem (store : Store) (r : Proxy)
    (hr : r ∈ optimizePool store) :
    ∃ s ∈ store, ¬ (s.score < 30 ∨ s.successRate < 20) ∧
      r = (if (updateScore s).score ≥ 80 then
            { updateScore s with maxConcurrent := 20 } else updateScore s) := by
  unfold optimizePool at hr
  rcases List.mem_map.mp hr with ⟨t, ht, rfl⟩
  rcases List.mem_map.mp ht with ⟨s, hs, rfl⟩
  have hmem := List.mem_filter.mp hs
  refine ⟨s, hmem.1, ?_, rfl⟩
  simpa using hmem.2

/-- C8 (amended): optimise deletes exactly the rows with `score < 30` or
`success_rate < 20` (judged on the stored values), rescores every
survivor with `Proxy.UpdateScore`, and gives every row whose recomputed
score is at least 80 `max_concurrent = 20`; the score-10/score-85
pre-seed scenario holds when the score-85 row's stored health is
consistent with its score (derived success rate 100%, speed 500 ms), its
recomputed score then being 85 again. -/
theorem optimizePool_policy (store : Store) (hnd : (store.map Proxy.id).Nodup) :
    (∀ q ∈ store, (q.score < 30 ∨ q.successRate < 20) →
       ∀ r ∈ optimizePool store, r.id ≠ q.id) ∧
    (∀ q ∈ store, ¬ (q.score < 30 ∨ q.successRate < 20) →
       ∃ r ∈ optimizePool store, r.id = q.id ∧ r.score = (updateScore q).score ∧
         r.maxConcurrent =
           (if (updateScore q).score ≥ 80 then 20 else q.maxConcurrent)) ∧
    (∀ r ∈ optimizePool store, r.score ≥ 80 → r.maxConcurrent = 20) ∧
    ((∀ r ∈ optimizePool [lowScoreProxy, highScoreProxy], r.id ≠ lowScoreProxy.id) ∧
     (∃ r ∈ optimizePool [lowScoreProxy, highScoreProxy],
        r.id = highScoreProxy.id ∧ r.maxConcurrent = 20)) := by
  have hshape := optimizePool_mem
  refine ⟨?_, ?_, ?_, ?_, ?_⟩
  · intro q hq hdel r hr hid
    rcases optimizePool_mem store r hr with ⟨s, hs, hkeep, rfl⟩
    have hsid : s.id = q.id := by
      by_cases hcap : (updateScore s).score ≥ 80
      · rw [if_pos hcap] at hid
        exact hid
      · rw [if_neg hcap] at hid
        exact hid
    have : s = q := eq_of_mem_id_nodup store hnd s q hs hq hsid
    subst this
    exact hkeep hdel
  · intro q hq hkeep
    have hqf : q ∈ store.filter (fun p => !(p.score < 30 ∨ p.successRate < 20)) :=
      List.mem_filter.mpr ⟨hq, by simpa using hkeep⟩
    refine ⟨(if (updateScore q).score ≥ 80 then
              { updateScore q with maxConcurrent := 20 } else updateScore q), ?_, ?_, ?_, ?_⟩
    · unfold optimizePool
      exact List.mem_map_of_mem _ (List.mem_map_of_mem updateScore hqf)
    · by_cases hcap : (updateScore q).score ≥ 80
      · rw [if_pos hcap]; rfl
      · rw [if_neg hcap]; rfl
    · by_cases hcap : (updateScore q).score ≥ 80
      · rw [if_pos hcap]
      · rw [if_neg hcap]
    · by_cases hcap : (updateScore q).score ≥ 80
      · rw [if_pos hcap, if_pos hcap]
      · rw [if_neg hcap, if_neg hcap]
        exact updateScore_maxConcurrent q
  · intro r hr hcap
    rcases optimizePool_mem store r hr with ⟨s, hs, hkeep, rfl⟩
    by_cases h80 : (updateScore s).score ≥ 80
    · rw [if_pos h80]
    · rw [if_neg h80] at hcap ⊢
      exact absurd hcap h80
  · intro r hr hid
    rcases optimizePool_mem _ r hr with ⟨s, hs, hkeep, rfl⟩
    have hslow : s = highScoreProxy := by
      rcases List.mem_cons.mp hs with rfl | hs'
      · exact absurd (Or.inl (by norm_num [lowScoreProxy, baseProxy])) hkeep
      · rcases List.mem_cons.mp hs' with rfl | hs''
        · rfl
        · cases hs''
    subst hslow
    revert hid
    by_cases hcap : (updateScore highScoreProxy).score ≥ 80
    · rw [if_pos hcap]
      intro hid
      exact absurd hid (by decide)
    · rw [if_neg hcap]
      intro hid
      exact absurd hid (by decide)
  · have hscore : (updateScore highScoreProxy).score = 85 := by
      norm_num [updateScore, getSuccessRate, highScoreProxy, baseProxy]
    have hqf : highScoreProxy ∈
        ([lowScoreProxy, highScoreProxy] : Store).filter
          (fun p => !(p.score < 30 ∨ p.successRate < 20)) :=
      List.mem_filter.mpr ⟨by decide, by norm_num [highScoreProxy, baseProxy]⟩
    refine ⟨(if (updateScore highScoreProxy).score ≥ 80 then
              { updateScore highScoreProxy with maxConcurrent := 20 }
             else updateScore highScoreProxy), ?_, ?_, ?_⟩
    · unfold optimizePool
      exact List.mem_map_of_mem _ (List.mem_map_of_mem updateScore hqf)
    · rw [if_pos (by rw [hscore]; norm_num)]
      rfl
    · rw [if_pos (by rw [hscore]; norm_num)]

/-- C8 witness: the scenario store with duplicate-free ids. -/
theorem optimizePool_policy_witness :
    (([lowScoreProxy, highScoreProxy] : Store).map Proxy.id).Nodup ∧
    ((∀ q ∈ ([lowScoreProxy, highScoreProxy] : Store),
        (q.score < 30 ∨ q.successRate < 20) →
        ∀ r ∈ optimizePool [lowScoreProxy, highScoreProxy], r.id ≠ q.id) ∧
     (∀ q ∈ ([lowScoreProxy, highScoreProxy] : Store),
        ¬ (q.score < 30 ∨ q.successRate < 20) →
        ∃ r ∈ optimizePool [lowScoreProxy, highScoreProxy], r.id = q.id ∧
          r.score = (updateScore q).score ∧
          r.maxConcurrent =
            (if (updateScore q).score ≥ 80 then 20 else q.maxConcurrent)) ∧
     (∀ r ∈ optimizePool [lowScoreProxy, highScoreProxy], r.score ≥ 80 →
        r.maxConcurrent = 20) ∧
     ((∀ r ∈ optimizePool [lowScoreProxy, highScoreProxy], r.id ≠ lowScoreProxy.id) ∧
      (∃ r ∈ optimizePool [lowScoreProxy, highScoreProxy],
         r.id = highScoreProxy.id ∧ r.maxConcurrent = 20))) :=
  ⟨by decide, optimizePool_policy [lowScoreProxy, highScoreProxy] (by decide)⟩

/-- C8 counterexample: a freshly seeded row at score 85 with no recorded
outcomes (success-rate mirror 0) is DELETED by optimise (its
`success_rate < 20`), so "the second's max_concurrent becomes 20" fails
for it — the scenario does not hold for every pair at scores 10 and 85. -/
theorem optimizePool_deletes_fresh_85 :
    lowScoreProxy.score = 10 ∧ highScoreNoHistory.score = 85 ∧
    optimizePool [lowScoreProxy, highScoreNoHistory] = [] := by
  refine ⟨rfl, rfl, ?_⟩
  have h1 : decide (lowScoreProxy.score < 30 ∨ lowScoreProxy.successRate < 20) = true := by
    norm_num [lowScoreProxy, baseProxy]
  have h2 : decide (highScoreNoHistory.score < 30 ∨
      highScoreNoHistory.successRate < 20) = true := by
    norm_num [highScoreNoHistory, baseProxy]
  unfold optimizePool
  rw [show ([lowScoreProxy, highScoreNoHistory] : Store).filter
      (fun p => !(p.score < 30 ∨ p.successRate < 20)) = [] from by
    simp [List.filter, h1, h2]]
  rfl

end ProxyPool
